import Mathlib

set_option maxRecDepth 100000

/-!
Verification development for the CV-analysis serverless handler
(`src/main.js` of the repository; the two unnamed files are near-duplicate
variants of the same handler).  The definitions below are a shallow
embedding of that code: pure string/list functions for the JSON
extraction-and-repair routine (`extractAndCleanJSON`), a JSON value type
and strict JSON parser standing for JavaScript's `JSON.parse`, the
analysis-stage validation and score clamping (`analyzeCVContent`), the
deterministic fallback report builder (`generateFallbackAnalysis`), and
the orchestrating handler (`module.exports`) with its external
collaborators (Appwrite database/storage, the Gemini model) modelled as
an environment of call outcomes.

Modelling conventions:
* JavaScript strings are `List Char` / `String`; regex-based global
  replaces are written as left-to-right scanners with the same match and
  continuation semantics as a JS global regex.
* JSON numbers are exact decimals `JValue.num m e` denoting `m / 10^e`
  (JavaScript doubles are exact on all the decimal literals these claims
  touch; binary rounding of non-representable decimals is out of scope).
* `Math.max(0, Math.min(100, x))` on a decimal is `clampNum`.  The
  JavaScript `ToNumber` coercion that `Math.min` would apply to a string,
  array or plain object operand is not modelled; theorems about clamping
  assume score fields are JSON numbers or absent (`null`/boolean operands
  are modelled, since their coercion is trivial).
* Wall-clock items (`analyzedAt`, `executionTime`) and prompt text are
  not modelled: no claim mentions them, and the prompt only feeds the
  model whose output the environment supplies directly.
-/

/-- JavaScript `\s` over the ASCII range (space, tab, line feed, vertical
tab, form feed, carriage return); used by the regex repairs and `trim`. -/
def isJsWs (c : Char) : Bool :=
  c = ' ' || c = '\t' || c = '\n' || c = '\x0b' || c = '\x0c' || c = '\r'

/-- JavaScript `\w`: ASCII letters, digits and underscore. -/
def isWordChar (c : Char) : Bool :=
  ('a' ≤ c && c ≤ 'z') || ('A' ≤ c && c ≤ 'Z') || ('0' ≤ c && c ≤ '9') || c = '_'

/-- One global-regex pass deleting every occurrence of the literal tag
`t0 :: ttl` together with the whitespace run after it, as the two
`text.replace(/```json\s*/g, '')` and `.replace(/```\s*/g, '')` calls in
`extractAndCleanJSON` (main.js line 35) do.  The tag is passed with its
head split off so that it is never empty. -/
def stripTagWsGo (t0 : Char) (ttl : List Char) : Nat → List Char → List Char
  | 0, s => s
  | _ + 1, [] => []
  | fuel + 1, c :: rest =>
    if (t0 :: ttl).isPrefixOf (c :: rest) then
      stripTagWsGo t0 ttl fuel ((rest.drop ttl.length).dropWhile isJsWs)
    else
      c :: stripTagWsGo t0 ttl fuel rest

/-- Entry point of the scan above: the fuel bounds the number of steps,
and one step always consumes at least one character, so `s.length`
suffices and the fuel-exhausted branch is unreachable. -/
def stripTagWs (t0 : Char) (ttl : List Char) (s : List Char) : List Char :=
  stripTagWsGo t0 ttl s.length s

/-- `s.trim()` on the left: drop the leading JS-whitespace run. -/
def trimLeft (s : List Char) : List Char := s.dropWhile isJsWs

/-- `s.trim()` on the right: drop the trailing JS-whitespace run. -/
def trimRight (s : List Char) : List Char := (s.reverse.dropWhile isJsWs).reverse

/-- JavaScript `String.prototype.trim`. -/
def trimList (s : List Char) : List Char := trimRight (trimLeft s)

/-- The boundary slice of `extractAndCleanJSON` (main.js lines 38-46):
take the text from the first `{` through the last `}`, or fail (`none`)
when either brace is absent or the first `{` does not lie strictly
before the last `}`.  Phrased with `dropWhile` from both ends, which
computes the same slice as `indexOf`/`lastIndexOf`/`substring` do:
drop everything before the first `{`, then (from the right) everything
after the last `}`. -/
def braceCore (s : List Char) : List Char :=
  ((s.dropWhile (fun c => c ≠ '{')).reverse.dropWhile (fun c => c ≠ '}')).reverse

/-- Failure condition and result of the slice, as in the source: `none`
exactly when the core is empty, i.e. when no `{` stands strictly before
a `}`. -/
def sliceBraces (s : List Char) : Option (List Char) :=
  if braceCore s = [] then none else some (braceCore s)

/-- One pass of `.replace(/,(\s*[}\]])/g, '$1')` (main.js line 47):
delete a comma that is followed, across optional whitespace, by `}` or
`]`; scanning resumes after the closing bracket of a match. -/
def removeTrailingCommasGo : Nat → List Char → List Char
  | 0, s => s
  | _ + 1, [] => []
  | fuel + 1, c :: rest =>
    if c = ',' then
      match rest.dropWhile isJsWs with
      | d :: rest2 =>
        if d = '}' ∨ d = ']' then
          rest.takeWhile isJsWs ++ d :: removeTrailingCommasGo fuel rest2
        else
          c :: removeTrailingCommasGo fuel rest
      | [] => c :: removeTrailingCommasGo fuel rest
    else c :: removeTrailingCommasGo fuel rest

/-- Entry point of the scan above (fuel as in `stripTagWs`). -/
def removeTrailingCommas (s : List Char) : List Char :=
  removeTrailingCommasGo s.length s

/-- One pass of `.replace(/([{,]\s*)(\w+):/g, '$1"$2":')` (main.js line
48): after `{` or `,` and optional whitespace, wrap a nonempty word that
is immediately followed by `:` in double quotes; scanning resumes after
the colon of a match. -/
def quoteKeysGo : Nat → List Char → List Char
  | 0, s => s
  | _ + 1, [] => []
  | fuel + 1, c :: rest =>
    if c = '{' ∨ c = ',' then
      match (rest.dropWhile isJsWs).dropWhile isWordChar with
      | d :: rest2 =>
        if d = ':' ∧ (rest.dropWhile isJsWs).takeWhile isWordChar ≠ [] then
          c :: rest.takeWhile isJsWs ++
            '"' :: (rest.dropWhile isJsWs).takeWhile isWordChar ++
            '"' :: ':' :: quoteKeysGo fuel rest2
        else
          c :: quoteKeysGo fuel rest
      | [] => c :: quoteKeysGo fuel rest
    else c :: quoteKeysGo fuel rest

/-- Entry point of the scan above (fuel as in `stripTagWs`). -/
def quoteKeys (s : List Char) : List Char :=
  quoteKeysGo s.length s

/-- One pass of `.replace(/:\s*'([^']*)'/g, ': "$1"')` (main.js line 49):
a colon, optional whitespace, then a single-quoted run without inner
single quotes becomes `: "..."` (the matched whitespace is replaced by
one space); scanning resumes after the closing single quote. -/
def singleToDoubleGo : Nat → List Char → List Char
  | 0, s => s
  | _ + 1, [] => []
  | fuel + 1, c :: rest =>
    if c = ':' then
      match rest.dropWhile isJsWs with
      | d :: rest1 =>
        if d = '\'' then
          match rest1.dropWhile (fun ch => ch ≠ '\'') with
          | _ :: rest2 =>
            ':' :: ' ' :: '"' :: rest1.takeWhile (fun ch => ch ≠ '\'') ++
              '"' :: singleToDoubleGo fuel rest2
          | [] => c :: singleToDoubleGo fuel rest
        else c :: singleToDoubleGo fuel rest
      | [] => c :: singleToDoubleGo fuel rest
    else c :: singleToDoubleGo fuel rest

/-- Entry point of the scan above (fuel as in `stripTagWs`). -/
def singleToDouble (s : List Char) : List Char :=
  singleToDoubleGo s.length s

/-- `.replace(/\n/g, ' ')` (main.js line 50). -/
def newlinesToSpaces (s : List Char) : List Char :=
  s.map (fun c => if c = '\n' then ' ' else c)

/-- One pass of `.replace(/\s+/g, ' ')` (main.js line 51): collapse each
maximal whitespace run to a single space. -/
def collapseWsGo : Nat → List Char → List Char
  | 0, s => s
  | _ + 1, [] => []
  | fuel + 1, c :: rest =>
    if isJsWs c then ' ' :: collapseWsGo fuel (rest.dropWhile isJsWs)
    else c :: collapseWsGo fuel rest

/-- Entry point of the scan above (fuel as in `stripTagWs`). -/
def collapseWs (s : List Char) : List Char :=
  collapseWsGo s.length s

/-- The four textual repairs of `extractAndCleanJSON` applied to the
sliced core, in source order (main.js lines 46-52). -/
def repairCore (core : List Char) : List Char :=
  trimList (collapseWs (newlinesToSpaces (singleToDouble (quoteKeys (removeTrailingCommas core)))))

/-- `extractAndCleanJSON` (main.js lines 32-58): strip fenced-code
markers, trim, slice from the first `{` to the last `}` (failing with
the wrapped "No valid JSON object found" error if that is impossible),
then apply the four repairs.  The `catch` in the source re-wraps the one
`throw` it contains; no other statement of the body can throw, so the
error value below is the only failure the routine produces. -/
def extractAndCleanJSON (text : String) : Except String String :=
  match sliceBraces (trimList (stripTagWs '`' ['`', '`']
      (stripTagWs '`' ['`', '`', 'j', 's', 'o', 'n'] text.toList))) with
  | none => Except.error "Failed to clean JSON: No valid JSON object found in response"
  | some core => Except.ok (String.mk (repairCore core))

/-- Parsed JSON values, the result type of `JSON.parse`.  A number is an
exact decimal `m / 10 ^ e` (see the header note on doubles).  Objects
are association lists with distinct keys in first-appearance order,
which is how `JSON.parse` materialises them (last duplicate wins, first
position kept). -/
inductive JValue where
  | null : JValue
  | bool (b : Bool) : JValue
  | num (m : Int) (e : Nat) : JValue
  | str (s : String) : JValue
  | arr (xs : List JValue) : JValue
  | obj (fields : List (String × JValue)) : JValue

/-- Property write on an assoc list: overwrite the first binding of the
key in place, else append a new binding (JavaScript object assignment
and `JSON.parse` duplicate-key handling). -/
def setKey : List (String × JValue) → String → JValue → List (String × JValue)
  | [], k, v => [(k, v)]
  | (k', v') :: rest, k, v =>
    if k' = k then (k', v) :: rest else (k', v') :: setKey rest k v

/-- Property read on an assoc list: the value bound to `k`, if any. -/
def getField (fields : List (String × JValue)) (k : String) : Option JValue :=
  (fields.find? (fun p => p.1 = k)).map (fun p => p.2)

/-- Property read `v[k]`: `none` is JavaScript `undefined` (also the
result of reading a named property of a non-object, as the source only
does on values whose property set is empty for the keys it uses). -/
def jget : JValue → String → Option JValue
  | JValue.obj fields, k => getField fields k
  | _, _ => none

/-- Two-level property read `v[k1][k2]` guarded against `undefined`. -/
def jget2 (v : JValue) (k1 k2 : String) : Option JValue :=
  match jget v k1 with
  | some c => jget c k2
  | none => none

/-- JavaScript truthiness of a defined value: `null`, `false`, `0` and
the empty string are falsy; every array and object is truthy.  (`NaN`
does not arise: numbers in this model are exact decimals.) -/
def truthy : JValue → Bool
  | JValue.null => false
  | JValue.bool b => b
  | JValue.num m _ => m ≠ 0
  | JValue.str s => s ≠ ""
  | JValue.arr _ => true
  | JValue.obj _ => true

/-- Truthiness of a possibly-`undefined` read (`undefined` is falsy). -/
def truthyOpt : Option JValue → Bool
  | some v => truthy v
  | none => false

/-- JSON whitespace (strictly space, tab, line feed, carriage return —
narrower than JavaScript `\s`). -/
def isJsonWs (c : Char) : Bool :=
  c = ' ' || c = '\t' || c = '\n' || c = '\r'

/-- ASCII decimal digit (code points 48-57, i.e. 0-9). -/
def isDigit (c : Char) : Bool := 48 ≤ c.toNat && c.toNat ≤ 57

/-- Numeric value of one ASCII digit. -/
def digitVal (c : Char) : Nat := c.toNat - 48

/-- Value of a digit run, most significant first. -/
def digitsToNat (ds : List Char) : Nat :=
  ds.foldl (fun acc c => 10 * acc + digitVal c) 0

/-- Hex digit value, if any (0-9, a-f, A-F by code point). -/
def hexVal (c : Char) : Option Nat :=
  if isDigit c then some (digitVal c)
  else if 97 ≤ c.toNat && c.toNat ≤ 102 then some (c.toNat - 87)
  else if 65 ≤ c.toNat && c.toNat ≤ 70 then some (c.toNat - 55)
  else none

/-- Decode the body of a JSON string literal after the opening quote:
returns the characters and the input following the closing quote.
Implements the escapes of the JSON grammar; a `\uXXXX` escape becomes
the corresponding scalar when valid (lone surrogates, which Lean `Char`
cannot hold, fall back like `Char.ofNat` to NUL — no claim touches
them).  Unescaped control characters are rejected as `JSON.parse`
rejects them. -/
def parseStringBody : Nat → List Char → Except String (List Char × List Char)
  | 0, _ => Except.error "Unexpected end of JSON input"
  | _, [] => Except.error "Unterminated string in JSON"
  | fuel + 1, c :: rest =>
    if c = '"' then Except.ok ([], rest)
    else if c = '\\' then
      match rest with
      | [] => Except.error "Unterminated string in JSON"
      | e :: rest2 =>
        let decoded : Except String (Char × List Char) :=
          if e = '"' then Except.ok ('"', rest2)
          else if e = '\\' then Except.ok ('\\', rest2)
          else if e = '/' then Except.ok ('/', rest2)
          else if e = 'b' then Except.ok ('\x08', rest2)
          else if e = 'f' then Except.ok ('\x0c', rest2)
          else if e = 'n' then Except.ok ('\n', rest2)
          else if e = 'r' then Except.ok ('\r', rest2)
          else if e = 't' then Except.ok ('\t', rest2)
          else if e = 'u' then
            match rest2 with
            | h1 :: h2 :: h3 :: h4 :: rest3 =>
              match hexVal h1, hexVal h2, hexVal h3, hexVal h4 with
              | some a, some b, some c3, some d =>
                Except.ok (Char.ofNat (d + 16 * (c3 + 16 * (b + 16 * a))), rest3)
              | _, _, _, _ => Except.error "Bad Unicode escape in JSON"
            | _ => Except.error "Bad Unicode escape in JSON"
          else Except.error "Bad escaped character in JSON"
        match decoded with
        | Except.error msg => Except.error msg
        | Except.ok (ch, rest3) =>
          match parseStringBody fuel rest3 with
          | Except.error msg => Except.error msg
          | Except.ok (tail, rem) => Except.ok (ch :: tail, rem)
    else if c.toNat < 32 then Except.error "Bad control character in JSON string"
    else
      match parseStringBody fuel rest with
      | Except.error msg => Except.error msg
      | Except.ok (tail, rem) => Except.ok (c :: tail, rem)

/-- The optional exponent part of a JSON number: rescale the exact
decimal `mant / 10 ^ fracLen` by `10 ^ ±k`. -/
def parseNumExp (mant : Int) (fracLen : Nat) (s : List Char) :
    Except String (JValue × List Char) :=
  match s with
  | e :: t =>
    if e = 'e' ∨ e = 'E' then
      let (expNeg, t2) : Bool × List Char :=
        match t with
        | '+' :: t2 => (false, t2)
        | '-' :: t2 => (true, t2)
        | _ => (false, t)
      match t2.takeWhile isDigit, t2.dropWhile isDigit with
      | [], _ => Except.error "Unexpected token in JSON"
      | es, afterExp =>
        let k := digitsToNat es
        let scaled : JValue :=
          if expNeg then JValue.num mant (fracLen + k)
          else if k ≤ fracLen then JValue.num mant (fracLen - k)
          else JValue.num (mant * Int.ofNat (10 ^ (k - fracLen))) 0
        Except.ok (scaled, afterExp)
    else Except.ok (JValue.num mant fracLen, s)
  | [] => Except.ok (JValue.num mant fracLen, [])

/-- Digits, optional fraction and optional exponent of a JSON number
whose minus sign has been consumed; an integer part with a leading `0`
is cut after the `0` exactly as the JSON grammar demands (the stray
digits then fail at the surrounding level, as in `JSON.parse`).
Returns the exact decimal and the rest of the input. -/
def parseNumTail (neg : Bool) (s : List Char) : Except String (JValue × List Char) :=
  match s.takeWhile isDigit, s.dropWhile isDigit with
  | [], _ => Except.error "Unexpected token in JSON"
  | d :: ds, afterDigits =>
    let intDigits : List Char := if d = '0' then ['0'] else d :: ds
    let rest0 : List Char := if d = '0' then ds ++ afterDigits else afterDigits
    let sign : Int := if neg then -1 else 1
    match rest0 with
    | '.' :: t =>
      match t.takeWhile isDigit, t.dropWhile isDigit with
      | [], _ => Except.error "Unexpected token in JSON"
      | f :: fs, afterFrac =>
        parseNumExp (sign * Int.ofNat (digitsToNat (intDigits ++ f :: fs)))
          (f :: fs).length afterFrac
    | _ => parseNumExp (sign * Int.ofNat (digitsToNat intDigits)) 0 rest0

mutual

/-- Recursive-descent JSON value parser (the grammar of `JSON.parse`).
Fuel bounds the recursion; `jsonParse` supplies more fuel than any input
can consume. -/
def parseValue : Nat → List Char → Except String (JValue × List Char)
  | 0, _ => Except.error "Unexpected end of JSON input"
  | _ + 1, [] => Except.error "Unexpected end of JSON input"
  | fuel + 1, c :: rest =>
    if c = '{' then parseMembers fuel (List.dropWhile isJsonWs rest) []
    else if c = '[' then parseElements fuel (List.dropWhile isJsonWs rest) []
    else if c = '"' then
      match parseStringBody (rest.length + 1) rest with
      | Except.error msg => Except.error msg
      | Except.ok (cs, rem) => Except.ok (JValue.str (String.mk cs), rem)
    else if c = 't' then
      match rest with
      | 'r' :: 'u' :: 'e' :: rem => Except.ok (JValue.bool true, rem)
      | _ => Except.error "Unexpected token in JSON"
    else if c = 'f' then
      match rest with
      | 'a' :: 'l' :: 's' :: 'e' :: rem => Except.ok (JValue.bool false, rem)
      | _ => Except.error "Unexpected token in JSON"
    else if c = 'n' then
      match rest with
      | 'u' :: 'l' :: 'l' :: rem => Except.ok (JValue.null, rem)
      | _ => Except.error "Unexpected token in JSON"
    else if c = '-' then parseNumTail true rest
    else if isDigit c then parseNumTail false (c :: rest)
    else Except.error "Unexpected token in JSON"

/-- Members of an object after `{` (leading whitespace consumed). -/
def parseMembers : Nat → List Char → List (String × JValue) →
    Except String (JValue × List Char)
  | 0, _, _ => Except.error "Unexpected end of JSON input"
  | _ + 1, [], _ => Except.error "Unexpected end of JSON input"
  | fuel + 1, c :: rest, acc =>
    if c = '}' && acc.isEmpty then Except.ok (JValue.obj [], rest)
    else if c = '"' then
      match parseStringBody (rest.length + 1) rest with
      | Except.error msg => Except.error msg
      | Except.ok (cs, rem) =>
        match List.dropWhile isJsonWs rem with
        | ':' :: afterColon =>
          match parseValue fuel (List.dropWhile isJsonWs afterColon) with
          | Except.error msg => Except.error msg
          | Except.ok (v, rem2) =>
            let acc2 := setKey acc (String.mk cs) v
            match List.dropWhile isJsonWs rem2 with
            | ',' :: next => parseMembers fuel (List.dropWhile isJsonWs next) acc2
            | '}' :: next => Except.ok (JValue.obj acc2, next)
            | _ => Except.error "Expected comma or closing brace in JSON object"
        | _ => Except.error "Expected colon in JSON object"
    else Except.error "Expected property name in JSON object"

/-- Elements of an array after `[` (leading whitespace consumed). -/
def parseElements : Nat → List Char → List JValue →
    Except String (JValue × List Char)
  | 0, _, _ => Except.error "Unexpected end of JSON input"
  | _ + 1, [], _ => Except.error "Unexpected end of JSON input"
  | fuel + 1, c :: rest, acc =>
    if c = ']' && acc.isEmpty then Except.ok (JValue.arr [], rest)
    else
      match parseValue fuel (c :: rest) with
      | Except.error msg => Except.error msg
      | Except.ok (v, rem) =>
        match List.dropWhile isJsonWs rem with
        | ',' :: next => parseElements fuel (List.dropWhile isJsonWs next) (acc ++ [v])
        | ']' :: next => Except.ok (JValue.arr (acc ++ [v]), next)
        | _ => Except.error "Expected comma or closing bracket in JSON array"

end

/-- `JSON.parse`: whole-input parse, rejecting trailing non-whitespace. -/
def jsonParse (s : String) : Except String JValue :=
  match parseValue (s.toList.length + 1) (List.dropWhile isJsonWs s.toList) with
  | Except.error msg => Except.error msg
  | Except.ok (v, rem) =>
    if List.dropWhile isJsonWs rem = [] then Except.ok v
    else Except.error "Unexpected non-whitespace character after JSON"

/-- The sanitizer contract of the specification: clean the raw model
text with `extractAndCleanJSON`, then parse it (main.js lines 327-328,
`const cleanedJson = extractAndCleanJSON(responseText); const analysis =
JSON.parse(cleanedJson)`). -/
def sanitizeAndParse (raw : String) : Except String JValue :=
  match extractAndCleanJSON raw with
  | Except.error msg => Except.error msg
  | Except.ok cleaned => jsonParse cleaned

/-- The required top-level fields `analyzeCVContent` validates (main.js
lines 331-334).  Note the list checks `careerStageAlignment` and does
not check `careerPathAlignment`. -/
def requiredFields : List String :=
  ["overallScore", "careerStageAlignment", "strengths", "weaknesses",
   "profileVsCvGaps", "recommendations", "nextSteps", "marketability"]

/-- The `for (const field of requiredFields) if (!analysis[field]) throw`
loop (main.js lines 336-340): the first required field whose value is
falsy or undefined, if any.  Presence is tested by truthiness, not by
key membership. -/
def firstMissingField (analysis : JValue) : Option String :=
  requiredFields.find? (fun f => !truthyOpt (jget analysis f))

/-- `Math.max(0, Math.min(100, x))` on the exact decimal `m / 10 ^ e`
(main.js line 362). -/
def clampNum (m : Int) (e : Nat) : JValue :=
  if m < 0 then JValue.num 0 0
  else if 100 * (10 : Int) ^ e < m then JValue.num 100 0
  else JValue.num m e

/-- The final step of one `scoreFields.forEach` iteration (main.js lines
360-363): if `obj[lastKey] !== undefined`, overwrite it with the clamped
value.  `null` and boolean operands go through JavaScript's trivial
numeric coercion; a string, array or object operand is left unchanged
(out of modelling scope, see the header — every theorem that relies on
this function assumes the score is a number or absent). -/
def clampLeaf (fields : List (String × JValue)) (k : String) : List (String × JValue) :=
  match getField fields k with
  | some (JValue.num m e) => setKey fields k (clampNum m e)
  | some JValue.null => setKey fields k (clampNum 0 0)
  | some (JValue.bool b) => setKey fields k (clampNum (if b then 1 else 0) 0)
  | _ => fields

/-- A one-segment score path (`'overallScore'`): clamp directly at the
top level.  Reading a property of a non-object yields `undefined`, so a
non-object report is left unchanged. -/
def clampPath1 (v : JValue) (k : String) : JValue :=
  match v with
  | JValue.obj fields => JValue.obj (clampLeaf fields k)
  | _ => v

/-- The navigation step of main.js lines 354-358: `if (!obj[keys[i]])
obj[keys[i]] = {}` replaces a falsy or missing intermediate with a
fresh empty object. -/
def childOrEmpty : Option JValue → JValue
  | some c => if truthy c then c else JValue.obj []
  | none => JValue.obj []

/-- The leaf step inside the navigated-to intermediate: clamp when it is
an object; a truthy non-object has no such property, so it is returned
unchanged. -/
def clampChild (k2 : String) : JValue → JValue
  | JValue.obj gs => JValue.obj (clampLeaf gs k2)
  | other => other

/-- A two-segment score path, assembled from the two steps above: the
navigated child is rewritten in place (`setKey`), matching the in-place
mutation of the source. -/
def clampPath2 (v : JValue) (k1 k2 : String) : JValue :=
  match v with
  | JValue.obj fields =>
    JValue.obj (setKey fields k1 (clampChild k2 (childOrEmpty (getField fields k1))))
  | _ => v

/-- The whole `scoreFields.forEach` (main.js lines 343-364), in source
order over the four score paths. -/
def clampScores (v : JValue) : JValue :=
  clampPath2
    (clampPath2
      (clampPath2 (clampPath1 v "overallScore") "careerStageAlignment" "alignmentScore")
      "careerPathAlignment" "alignmentScore")
    "marketability" "score"

/-- `analyzeCVContent` (main.js lines 147-372) after the model call: the
argument is the outcome of `model.generateContent` (an error, or the raw
response text supplied by the environment — the prompt only influences
that text, which the environment provides directly).  The body cleans,
parses, validates required fields by truthiness, clamps the four score
paths; its `catch` wraps every failure in the one `AnalysisFailed`
message prefix.  `validateAndClamp` is the part after `JSON.parse`
(main.js lines 330-366). -/
def validateAndClamp (analysis : JValue) : Except String JValue :=
  match firstMissingField analysis with
  | some f =>
    Except.error ("Failed to analyze CV content: Missing required field in analysis: " ++ f)
  | none => Except.ok (clampScores analysis)

/-- The failure routing of `analyzeCVContent` around `validateAndClamp`:
a model error, a sanitizer error and a parse error all land in the same
`catch`. -/
def analyzeCVContent (modelResult : Except String String) : Except String JValue :=
  match modelResult with
  | Except.error e => Except.error ("Failed to analyze CV content: " ++ e)
  | Except.ok raw =>
    match sanitizeAndParse raw with
    | Except.error e => Except.error ("Failed to analyze CV content: " ++ e)
    | Except.ok analysis => validateAndClamp analysis

/-- `extractTextFromCV` (main.js lines 66-138) after the model call: the
argument is the outcome of the vision request.  `!extractedText ||
extractedText.trim().length < 50` throws `Insufficient text extracted`;
the `catch` wraps any failure in the `ExtractionFailed` prefix.  (MIME
selection only tags the request and cannot affect success; not
modelled.) -/
def extractTextFromCV (modelResult : Except String String) : Except String String :=
  match modelResult with
  | Except.error e => Except.error ("Failed to extract text from CV: " ++ e)
  | Except.ok t =>
    if (trimList t.toList).length < 50 then
      Except.error "Failed to extract text from CV: Insufficient text extracted from document"
    else Except.ok t

/-- The profile record (`talent` document) as the handler reads it.
Absent array attributes and `[]` behave identically in the source
(`talent.skills?.filter(...) || []`), so plain lists suffice; `id` is
the document `$id`. -/
structure Talent where
  id : String
  fullname : String
  careerStage : String
  skills : List String
  degrees : List String
  certifications : List String
  interests : List String
  selectedPath : Option String

/-- The career-path record as the handler reads it. -/
structure CareerPath where
  id : String
  title : String
  requiredSkills : List String
  requiredCertifications : List String
  suggestedDegrees : List String
  toolsAndTechnologies : List String

/-- One entry of `stageSpecificContent` (main.js lines 384-424). -/
structure StageContent where
  strengths : List String
  recommendations : List String
  alignmentScore : Int

/-- `stageSpecificContent['Pathfinder']`. -/
def pathfinderContent : StageContent :=
  { strengths :=
      ["Clear career direction as a Pathfinder seeking initial experience",
       "Appropriate stage for skill development and learning",
       "Good foundation for entry-level positions"],
    recommendations :=
      ["Focus on building foundational skills for your chosen field",
       "Seek internships or entry-level positions to gain experience",
       "Consider online courses or certifications to strengthen your profile"],
    alignmentScore := 70 }

/-- `stageSpecificContent[talent.careerStage] ||
stageSpecificContent['Pathfinder']` (main.js line 426). -/
def stageContentFor (careerStage : String) : StageContent :=
  if careerStage = "Pathfinder" then pathfinderContent
  else if careerStage = "Trailblazer" then
    { strengths :=
        ["Career progression mindset appropriate for skill advancement",
         "Ready for mid-level challenges and leadership opportunities",
         "Good foundation for specialization and expertise development"],
      recommendations :=
        ["Focus on advanced skills and specialization in your field",
         "Seek leadership or mentoring opportunities",
         "Consider advanced certifications to demonstrate expertise"],
      alignmentScore := 60 }
  else if careerStage = "Horizon Changer" then
    { strengths :=
        ["Valuable experience from previous career to leverage",
         "Mature approach to career transition and change",
         "Transferable skills that can benefit new field"],
      recommendations :=
        ["Highlight transferable skills from your previous career",
         "Identify skill gaps specific to your new chosen field",
         "Consider bridge training or certifications for career transition"],
      alignmentScore := 55 }
  else pathfinderContent

/-- An array of strings as a `JValue`. -/
def jarrS (xs : List String) : JValue := JValue.arr (xs.map JValue.str)

/-- An integer score as a `JValue`. -/
def jint (n : Int) : JValue := JValue.num n 0

/-- `talent.skills?.filter(skill => careerPath.requiredSkills?.includes(skill)) || []`
(main.js lines 456-457). -/
def fallbackMatchingSkills (talent : Talent) (careerPath : CareerPath) : List String :=
  talent.skills.filter (fun skill => careerPath.requiredSkills.contains skill)

/-- `careerPath.requiredSkills?.filter(skill => !talent.skills?.includes(skill)) || []`
(main.js lines 458-459). -/
def fallbackMissingSkills (talent : Talent) (careerPath : CareerPath) : List String :=
  careerPath.requiredSkills.filter (fun skill => !talent.skills.contains skill)

/-- `talent.certifications?.filter(cert => careerPath.requiredCertifications?.includes(cert)) || []`
(main.js lines 460-461). -/
def fallbackMatchingCerts (talent : Talent) (careerPath : CareerPath) : List String :=
  talent.certifications.filter (fun cert => careerPath.requiredCertifications.contains cert)

/-- `careerPath.requiredCertifications?.filter(cert => !talent.certifications?.includes(cert)) || []`
(main.js lines 462-463). -/
def fallbackMissingCerts (talent : Talent) (careerPath : CareerPath) : List String :=
  careerPath.requiredCertifications.filter
    (fun cert => !talent.certifications.contains cert)

/-- The `careerPathAlignment` block of the fallback report (main.js
lines 454-474): real set comparison when a career path exists, zeroed
placeholders with the same field set when none does. -/
def fallbackCareerPathAlignment (talent : Talent) (careerPath : Option CareerPath) : JValue :=
  match careerPath with
  | some cp =>
    JValue.obj
      [("alignmentScore", jint 50),
       ("matchingSkills", jarrS (fallbackMatchingSkills talent cp)),
       ("missingSkills", jarrS (fallbackMissingSkills talent cp)),
       ("matchingCertifications", jarrS (fallbackMatchingCerts talent cp)),
       ("missingCertifications", jarrS (fallbackMissingCerts talent cp)),
       ("relevantExperience", jarrS ["Analysis based on profile information only"]),
       ("additionalRequirements", jarrS ["Complete detailed CV analysis for comprehensive insights"])]
  | none =>
    JValue.obj
      [("alignmentScore", jint 0),
       ("matchingSkills", jarrS []),
       ("missingSkills", jarrS []),
       ("matchingCertifications", jarrS []),
       ("missingCertifications", jarrS []),
       ("relevantExperience", jarrS ["No career path selected for comparison"]),
       ("additionalRequirements", jarrS ["Select a career path for targeted guidance"])]

/-- `generateFallbackAnalysis` (main.js lines 380-502): the
deterministic report built from the profile and optional career path
alone, with `baseScore = 65` and stage-specific templating. -/
def generateFallbackAnalysis (talent : Talent) (careerPath : Option CareerPath) : JValue :=
  let stageContent := stageContentFor talent.careerStage
  JValue.obj
    [("overallScore", jint 65),
     ("careerStageAlignment", JValue.obj
        [("alignmentScore", jint stageContent.alignmentScore),
         ("isAppropriateForStage", JValue.bool true),
         ("experienceLevel", JValue.str ("Analysis limited - declared as " ++ talent.careerStage)),
         ("stageJustification", JValue.str "Could not perform detailed experience validation at this time"),
         ("recommendations", jarrS
            ["Complete CV analysis needed to validate career stage alignment",
             "Ensure CV clearly shows experience level appropriate for your stage"]),
         ("redFlags", jarrS
            ["Unable to verify experience level against declared career stage"])]),
     ("strengths", jarrS stageContent.strengths),
     ("weaknesses", jarrS
        ["Unable to fully analyze CV content due to technical limitations",
         "Limited visibility into detailed work experience",
         "Cannot verify consistency between profile and CV"]),
     ("profileVsCvGaps", JValue.obj
        [("missingFromCV", jarrS ["Analysis temporarily unavailable"]),
         ("missingFromProfile", jarrS ["Analysis temporarily unavailable"]),
         ("inconsistencies", jarrS ["Could not perform detailed comparison at this time"])]),
     ("careerPathAlignment", fallbackCareerPathAlignment talent careerPath),
     ("recommendations", jarrS
        (stageContent.recommendations ++
         ["Ensure CV is in a clear, readable format (PDF recommended)",
          "Update your profile with complete and accurate information",
          "Try re-uploading your CV if the format may have caused issues"])),
     ("nextSteps", jarrS
        ["Re-attempt CV upload with optimized file format",
         "Complete all sections of your professional profile",
         "Review and update your skills and certifications list",
         (match careerPath with
          | some cp => "Focus development on " ++ cp.title ++ " requirements"
          | none => "Consider career path selection for personalized guidance")]),
     ("marketability", JValue.obj
        [("score", jint 55),
         ("summary", JValue.str
            ("Basic assessment for " ++ talent.careerStage ++
             " stage - complete CV analysis needed for detailed insights")),
         ("competitiveAdvantages", jarrS
            ["Professional profile information available",
             "Clear " ++ talent.careerStage ++ " career stage identification",
             "Structured approach to career development"]),
         ("improvementAreas", jarrS
            ["Need comprehensive CV analysis",
             "Profile optimization required",
             "Detailed skill verification needed"])])]

/-- The request after body parsing, with a flag for whether
`JSON.parse(req.body)` succeeded (main.js lines 525-535).  A missing
field and an empty string are equally falsy to the `!talentId ||
!fileData || !fileName` check, so the empty string stands for absent. -/
structure Request where
  bodyParses : Bool
  talentId : String
  fileData : String
  fileName : String

/-- Outcomes of every external-collaborator call the handler can make,
fixed per invocation: the environment-variable check, the Appwrite
talent query (its returned document list), the optional career-path
read, temporary-file creation (the new file id), temporary-file
deletion, and the two Gemini calls (extraction, then analysis) as raw
text or a thrown message.  `deleteOk` is the outcome of
`storage.deleteFile`; the source catches and only logs its failure, so
the handler never reads it — which is itself the cleanup-robustness
property. -/
structure Env where
  geminiKeySet : Bool
  talentDocs : Except String (List Talent)
  careerDoc : Except String CareerPath
  createFileResult : Except String String
  deleteOk : Bool
  extractResult : Except String String
  analysisResult : Except String String

/-- How many times each collaborator was invoked during one run. -/
structure CallLog where
  talentFetch : Nat
  careerFetch : Nat
  createFile : Nat
  deleteFile : Nat
  modelCalls : Nat

/-- No collaborator called. -/
def zeroLog : CallLog :=
  { talentFetch := 0, careerFetch := 0, createFile := 0, deleteFile := 0, modelCalls := 0 }

/-- The response metadata block (main.js lines 687-701; `analyzedAt` and
`executionTime` are wall-clock values, not modelled). -/
structure Metadata where
  talentId : String
  fullname : String
  careerStage : String
  careerPath : Option (String × String)
  fileName : String
  usedFallback : Bool

/-- The response envelope `res.json(...)` receives. -/
structure ResponseBody where
  success : Bool
  statusCode : Nat
  analysis : Option JValue
  metadata : Option Metadata
  errorMsg : Option String

/-- A run's observable outcome: the emitted response plus the calls
made. -/
structure HResult where
  resp : ResponseBody
  calls : CallLog

/-- An error response (`success:false`, no analysis, no metadata). -/
def errResponse (code : Nat) (msg : String) : ResponseBody :=
  { success := false, statusCode := code, analysis := none, metadata := none,
    errorMsg := some msg }

/-- The allow-list of main.js line 550. -/
def allowedExtensions : List String :=
  [".pdf", ".jpg", ".jpeg", ".png", ".doc", ".docx"]

/-- `fileName.toLowerCase().substring(fileName.lastIndexOf('.'))`
(main.js line 551): the suffix from the last dot, lowercased; with no
dot, `lastIndexOf` is `-1` and `substring(-1)` clamps to `0`, so the
whole lowercased name is the "extension". -/
def fileExtensionOf (fileName : String) : String :=
  let lower := fileName.toList.map Char.toLower
  if lower.contains '.' then
    String.mk ('.' :: (lower.reverse.takeWhile (fun c => c ≠ '.')).reverse)
  else String.mk lower

/-- `5 * 1024 * 1024` (main.js line 563). -/
def maxSizeBytes : Nat := 5 * 1024 * 1024

/-- `(fileData.length * 3) / 4 > maxSizeBytes` (main.js lines 562-565).
`length * 3` stays far below `2 ^ 53` and division by `4` is exact in
binary floating point, so the double comparison of the source equals
this exact integer comparison. -/
def fileTooLarge (fileData : String) : Bool :=
  maxSizeBytes * 4 < fileData.length * 3

/-- The career path the handler ends up with (main.js lines 605-622):
`null` unless the talent has a `selectedPath`; a failed
`databases.getDocument` is caught, logged and ignored, leaving `null`. -/
def fetchedCareerPath (env : Env) (talent : Talent) : Option CareerPath :=
  match talent.selectedPath with
  | some _ => env.careerDoc.toOption
  | none => none

/-- The Extracting→Analyzing chain of the inner `try` (main.js lines
651-659): the extraction stage runs first and its failure skips the
analysis stage. -/
def aiAnalysis (env : Env) : Except String JValue :=
  match extractTextFromCV env.extractResult with
  | Except.error e => Except.error e
  | Except.ok _ => analyzeCVContent env.analysisResult

/-- Gemini calls attempted inside the inner `try`: extraction always,
analysis only after extraction succeeded. -/
def modelCallCount (env : Env) : Nat :=
  match extractTextFromCV env.extractResult with
  | Except.error _ => 1
  | Except.ok _ => 2

/-- The handler `module.exports` (main.js lines 507-732) as a function
of the request and the per-invocation collaborator outcomes.  Control
flow is transcribed branch for branch; the outer `catch` (lines
710-731) is unreachable in this model because every statement after the
collaborator calls is total and every collaborator failure is already
handled by an inner `catch` — in particular no exception can escape
while a staged file exists, `res.json` itself being out-of-scope
plumbing. -/
def handler (env : Env) (req : Request) : HResult :=
  if !env.geminiKeySet then
    { resp := errResponse 500 "Server configuration error", calls := zeroLog }
  else if !req.bodyParses then
    { resp := errResponse 400 "Invalid JSON input", calls := zeroLog }
  else if req.talentId = "" ∨ req.fileData = "" ∨ req.fileName = "" then
    { resp := errResponse 400 "Missing required parameters: talentId, fileData, fileName",
      calls := zeroLog }
  else if !allowedExtensions.contains (fileExtensionOf req.fileName) then
    { resp := errResponse 400
        "Unsupported file type. Please upload PDF, DOC, DOCX, JPG, or PNG files.",
      calls := zeroLog }
  else if fileTooLarge req.fileData then
    { resp := errResponse 400 "File size too large. Please upload files smaller than 5MB.",
      calls := zeroLog }
  else
    match env.talentDocs with
    | Except.error _ =>
      { resp := errResponse 500 "Failed to fetch talent information",
        calls := { zeroLog with talentFetch := 1 } }
    | Except.ok [] =>
      { resp := errResponse 404 "Talent profile not found",
        calls := { zeroLog with talentFetch := 1 } }
    | Except.ok (talent :: _) =>
      let careerFetches : Nat := if talent.selectedPath.isSome then 1 else 0
      let careerPath : Option CareerPath := fetchedCareerPath env talent
      let uploadedFileId : Option String := env.createFileResult.toOption
      let (analysis, usedFallback) : JValue × Bool :=
        match aiAnalysis env with
        | Except.ok a => (a, false)
        | Except.error _ => (generateFallbackAnalysis talent careerPath, true)
      { resp :=
          { success := true, statusCode := 200, analysis := some analysis,
            metadata := some
              { talentId := talent.id, fullname := talent.fullname,
                careerStage := talent.careerStage,
                careerPath := careerPath.map (fun cp => (cp.id, cp.title)),
                fileName := req.fileName, usedFallback := usedFallback },
            errorMsg := none },
        calls :=
          { talentFetch := 1, careerFetch := careerFetches, createFile := 1,
            deleteFile := if uploadedFileId.isSome then 1 else 0,
            modelCalls := modelCallCount env } }

/-- The key set of an object value (a non-object has no keys). -/
def objKeys : Option JValue → List String
  | some (JValue.obj fields) => fields.map (fun p => p.1)
  | _ => []

/-- C5: For every profile, `buildFallback(profile, null)`
(`generateFallbackAnalysis(talent, null)`) returns a report whose
`careerPathAlignment` record has `alignmentScore` 0 and empty
`matchingSkills`, `missingSkills`, `matchingCertifications` and
`missingCertifications` sequences, and that record is structurally
present with the same field set as when a career path exists. -/
theorem fallback_no_career_path_zeroed (t : Talent) :
    jget2 (generateFallbackAnalysis t none) "careerPathAlignment" "alignmentScore"
      = some (jint 0) ∧
    jget2 (generateFallbackAnalysis t none) "careerPathAlignment" "matchingSkills"
      = some (jarrS []) ∧
    jget2 (generateFallbackAnalysis t none) "careerPathAlignment" "missingSkills"
      = some (jarrS []) ∧
    jget2 (generateFallbackAnalysis t none) "careerPathAlignment" "matchingCertifications"
      = some (jarrS []) ∧
    jget2 (generateFallbackAnalysis t none) "careerPathAlignment" "missingCertifications"
      = some (jarrS []) ∧
    ∀ cp : CareerPath,
      objKeys (jget (generateFallbackAnalysis t (some cp)) "careerPathAlignment")
        = objKeys (jget (generateFallbackAnalysis t none) "careerPathAlignment") :=
  ⟨rfl, rfl, rfl, rfl, rfl, fun _ => rfl⟩

/-- C6: For every profile and career target,
`generateFallbackAnalysis(talent, careerPath)` fills
`careerPathAlignment.matchingSkills` with exactly the set intersection
of the profile's skills and the target's required skills, and
`missingSkills` with exactly the required skills the profile lacks; the
certification fields are the analogous intersection and difference. -/
theorem fallback_career_path_set_semantics (t : Talent) (cp : CareerPath) (x : String) :
    (jget2 (generateFallbackAnalysis t (some cp)) "careerPathAlignment" "matchingSkills"
       = some (jarrS (fallbackMatchingSkills t cp)) ∧
     (x ∈ fallbackMatchingSkills t cp ↔ x ∈ t.skills ∧ x ∈ cp.requiredSkills)) ∧
    (jget2 (generateFallbackAnalysis t (some cp)) "careerPathAlignment" "missingSkills"
       = some (jarrS (fallbackMissingSkills t cp)) ∧
     (x ∈ fallbackMissingSkills t cp ↔ x ∈ cp.requiredSkills ∧ x ∉ t.skills)) ∧
    (jget2 (generateFallbackAnalysis t (some cp)) "careerPathAlignment" "matchingCertifications"
       = some (jarrS (fallbackMatchingCerts t cp)) ∧
     (x ∈ fallbackMatchingCerts t cp ↔ x ∈ t.certifications ∧ x ∈ cp.requiredCertifications)) ∧
    (jget2 (generateFallbackAnalysis t (some cp)) "careerPathAlignment" "missingCertifications"
       = some (jarrS (fallbackMissingCerts t cp)) ∧
     (x ∈ fallbackMissingCerts t cp ↔ x ∈ cp.requiredCertifications ∧ x ∉ t.certifications)) := by
  refine ⟨⟨rfl, ?_⟩, ⟨rfl, ?_⟩, ⟨rfl, ?_⟩, ⟨rfl, ?_⟩⟩
  · simp [fallbackMatchingSkills, List.mem_filter]
  · simp [fallbackMissingSkills, List.mem_filter]
  · simp [fallbackMatchingCerts, List.mem_filter]
  · simp [fallbackMissingCerts, List.mem_filter]

/-- A profile fixture with no selected career path. -/
def talentFixture : Talent :=
  { id := "doc1", fullname := "Alex Doe", careerStage := "Trailblazer",
    skills := ["React", "SQL"], degrees := ["BSc"], certifications := ["AWS"],
    interests := ["data"], selectedPath := none }

/-- A well-formed request fixture (allowed extension, small file). -/
def requestFixture : Request :=
  { bodyParses := true, talentId := "t1", fileData := "QUJDRA==", fileName := "cv.pdf" }

/-- Extracted text long enough to pass the 50-character minimum. -/
def cvTextFixture : String := String.mk (List.replicate 60 'x')

/-- A model response whose JSON carries every field of `requiredFields`
truthy and in-range scores. -/
def goodAnalysisRaw : String :=
  "\x7b\"overallScore\": 85, \"careerStageAlignment\": \x7b\"alignmentScore\": 90\x7d, \"strengths\": [\"a\"], \"weaknesses\": [\"b\"], \"profileVsCvGaps\": \x7b\"missingFromCV\": []\x7d, \"recommendations\": [\"c\"], \"nextSteps\": [\"d\"], \"marketability\": \x7b\"score\": 78\x7d\x7d"

/-- All collaborators succeed. -/
def envFixture : Env :=
  { geminiKeySet := true, talentDocs := Except.ok [talentFixture],
    careerDoc := Except.error "not fetched", createFileResult := Except.ok "tmp1",
    deleteOk := true, extractResult := Except.ok cvTextFixture,
    analysisResult := Except.ok goodAnalysisRaw }

/-- A model response with every required field present — `overallScore`
carrying the valid in-range score `0` — and otherwise truthy values. -/
def zeroScoreRaw : String :=
  "\x7b\"overallScore\": 0, \"careerStageAlignment\": \x7b\"alignmentScore\": 50\x7d, \"strengths\": [\"s\"], \"weaknesses\": [\"w\"], \"profileVsCvGaps\": \x7b\"x\": 1\x7d, \"recommendations\": [\"r\"], \"nextSteps\": [\"n\"], \"marketability\": \x7b\"score\": 40\x7d\x7d"

/-- C10: A sanitized model response can contain every mandatory
top-level field — `overallScore` present with the valid score `0` — and
the analysis stage still raises the missing-required-field error,
because field presence is tested by truthiness (`!analysis[field]`), not
key membership; the invocation is then routed to the fallback path with
`usedFallback:true`. -/
theorem zero_score_rejected_as_missing_field :
    (sanitizeAndParse zeroScoreRaw).map
        (fun v => requiredFields.all (fun f => (objKeys (some v)).contains f))
      = Except.ok true ∧
    (sanitizeAndParse zeroScoreRaw).map (fun v => jget v "overallScore")
      = Except.ok (some (jint 0)) ∧
    analyzeCVContent (Except.ok zeroScoreRaw)
      = Except.error
          "Failed to analyze CV content: Missing required field in analysis: overallScore" ∧
    (handler { envFixture with analysisResult := Except.ok zeroScoreRaw } requestFixture).resp.success
      = true ∧
    (handler { envFixture with analysisResult := Except.ok zeroScoreRaw } requestFixture).resp.statusCode
      = 200 ∧
    (handler { envFixture with analysisResult := Except.ok zeroScoreRaw } requestFixture).resp.metadata.map
        Metadata.usedFallback
      = some true := by
  refine ⟨?_, ?_, ?_, ?_, ?_, ?_⟩ <;> rfl

/-- Modelled from the spec (§3 "AnalysisReport ... mandatory fields"):
the mandatory top-level field set the claim enumerates, under the field
names the JSON contract uses (`profileVsGaps` is `profileVsCvGaps`,
`careerAlignment` is `careerPathAlignment`).  Kept separate from
`requiredFields` — the list the code actually checks — so the two can be
compared. -/
def specListedFields : List String :=
  ["overallScore", "strengths", "weaknesses", "profileVsCvGaps",
   "careerPathAlignment", "recommendations", "nextSteps", "marketability"]

/-- A model response carrying every field of `specListedFields` truthy —
but no `careerStageAlignment`. -/
def specFieldsRaw : String :=
  "\x7b\"overallScore\": 85, \"careerPathAlignment\": \x7b\"alignmentScore\": 75\x7d, \"strengths\": [\"a\"], \"weaknesses\": [\"b\"], \"profileVsCvGaps\": \x7b\"x\": 1\x7d, \"recommendations\": [\"c\"], \"nextSteps\": [\"d\"], \"marketability\": \x7b\"score\": 78\x7d\x7d"

/-- C4 counterexample: a parsed response in which every mandatory field
the claim enumerates (the §3 set, including `careerPathAlignment`) is
present and truthy, yet the analysis stage fails — the code's
`requiredFields` list checks `careerStageAlignment`, which the §3 set
does not contain, and does not check `careerPathAlignment`. -/
theorem spec_field_set_mismatch :
    (sanitizeAndParse specFieldsRaw).map
        (fun v => specListedFields.all (fun f => truthyOpt (jget v f)))
      = Except.ok true ∧
    analyzeCVContent (Except.ok specFieldsRaw)
      = Except.error
          "Failed to analyze CV content: Missing required field in analysis: careerStageAlignment" := by
  refine ⟨?_, ?_⟩ <;> rfl

/-- C4 (amended): the analysis stage fails exactly when the model call
errors, the sanitizer or parser fails, or any field of the code's
`requiredFields` list — `overallScore`, `careerStageAlignment`,
`strengths`, `weaknesses`, `profileVsCvGaps`, `recommendations`,
`nextSteps`, `marketability`; presence tested by truthiness — is absent
or falsy in the parsed structure; when all are present and truthy it
succeeds. -/
theorem analyze_success_iff_required_truthy (raw : String) :
    ((analyzeCVContent (Except.ok raw)).isOk = true ↔
      ∃ v, sanitizeAndParse raw = Except.ok v ∧
        ∀ f ∈ requiredFields, truthyOpt (jget v f) = true) ∧
    ∀ e, (analyzeCVContent (Except.error e)).isOk = false := by
  constructor
  · have key : analyzeCVContent (Except.ok raw) =
        (match sanitizeAndParse raw with
         | Except.error e => Except.error ("Failed to analyze CV content: " ++ e)
         | Except.ok analysis => validateAndClamp analysis) := rfl
    rw [key]
    cases hsp : sanitizeAndParse raw with
    | error e => simp [Except.isOk, Except.toBool]
    | ok v =>
      show (validateAndClamp v).isOk = true ↔ _
      have key2 : validateAndClamp v =
          (match firstMissingField v with
           | some f =>
             Except.error
               ("Failed to analyze CV content: Missing required field in analysis: " ++ f)
           | none => Except.ok (clampScores v)) := rfl
      rw [key2]
      cases hm : firstMissingField v with
      | none =>
        simp only [Except.isOk, Except.toBool, true_iff]
        refine ⟨v, rfl, fun f hf => ?_⟩
        simp only [firstMissingField] at hm
        simpa using List.find?_eq_none.mp hm f hf
      | some f =>
        simp only [Except.isOk, Except.toBool]
        constructor
        · intro h; cases h
        · rintro ⟨v', hv', hall⟩
          injection hv' with hv'
          subst hv'
          simp only [firstMissingField] at hm
          have hmem : f ∈ requiredFields := List.mem_of_find?_eq_some hm
          have hp := List.find?_some hm
          have h2 := hall f hmem
          simp [h2] at hp
  · intro e; rfl

/-- C9: Any request whose file extension falls outside the allow-list,
or whose approximate decoded size exceeds 5 MiB, is rejected with
`success:false` / 400 before any store, storage or model call, and the
response carries no analysis.  (Hypotheses: the server key is
configured and the body parsed — otherwise the config/parse branches
answer first, still without any call.) -/
theorem preflight_rejects_before_any_call (env : Env) (req : Request)
    (hkey : env.geminiKeySet = true) (hbody : req.bodyParses = true)
    (hbad : allowedExtensions.contains (fileExtensionOf req.fileName) = false ∨
            fileTooLarge req.fileData = true) :
    (handler env req).resp.success = false ∧
    (handler env req).resp.statusCode = 400 ∧
    (handler env req).resp.analysis = none ∧
    (handler env req).calls = zeroLog := by
  unfold handler
  simp only [hkey, hbody, Bool.not_true, Bool.false_eq_true, if_false]
  by_cases hmiss : req.talentId = "" ∨ req.fileData = "" ∨ req.fileName = ""
  · simp [hmiss, errResponse]
  · rcases hbad with hext | hsize
    · simp at hext
      simp [hmiss, hext, errResponse]
    · by_cases hext2 : fileExtensionOf req.fileName ∈ allowedExtensions
      · simp [hmiss, hext2, hsize, errResponse]
      · simp [hmiss, hext2, errResponse]

/-- C9 witness: the `resume.exe` request of end-to-end scenario 2. -/
theorem preflight_rejects_before_any_call_witness :
    (handler envFixture { requestFixture with fileName := "resume.exe" }).resp.success = false ∧
    (handler envFixture { requestFixture with fileName := "resume.exe" }).resp.statusCode = 400 ∧
    (handler envFixture { requestFixture with fileName := "resume.exe" }).resp.analysis = none ∧
    (handler envFixture { requestFixture with fileName := "resume.exe" }).calls = zeroLog :=
  preflight_rejects_before_any_call envFixture { requestFixture with fileName := "resume.exe" }
    (by rfl) (by rfl) (Or.inl (by rfl))

/-- The input-side condition under which the handler reaches the
file-staging step: configuration, body parse and the three pre-flight
checks pass, and the talent query returns a nonempty document list. -/
def passesPreflight (env : Env) (req : Request) : Prop :=
  env.geminiKeySet = true ∧ req.bodyParses = true ∧
  ¬(req.talentId = "" ∨ req.fileData = "" ∨ req.fileName = "") ∧
  fileExtensionOf req.fileName ∈ allowedExtensions ∧
  fileTooLarge req.fileData = false ∧
  ∃ t rest, env.talentDocs = Except.ok (t :: rest)

/-- C3: On every run that reaches staging and obtains a staged-file
handle, the release is attempted exactly once — the `finally` of the
inner `try` (main.js lines 669-679) runs on the success and the
AI-failure exits alike, and no exception can escape with a handle set
(every post-staging statement is total or caught), so the outer-catch
cleanup never produces a second attempt; and the outcome of the
release call (`deleteOk`) never changes the response. -/
theorem staged_file_released_exactly_once (env : Env) (req : Request) (fileId : String)
    (hpre : passesPreflight env req)
    (hstaged : env.createFileResult = Except.ok fileId) :
    (handler env req).calls.createFile = 1 ∧
    (handler env req).calls.deleteFile = 1 ∧
    ∀ b : Bool, (handler { env with deleteOk := b } req).resp = (handler env req).resp := by
  obtain ⟨h1, h2, h3, h4, h5, t, rest, htd⟩ := hpre
  refine ⟨?_, ?_, ?_⟩
  · unfold handler
    simp [h1, h2, h3, h4, h5, htd]
  · unfold handler
    simp [h1, h2, h3, h4, h5, htd, hstaged, Except.toOption]
  · intro b
    cases env
    rfl

/-- C3 witness: the all-collaborators-succeed fixture. -/
theorem staged_file_released_exactly_once_witness :
    (handler envFixture requestFixture).calls.createFile = 1 ∧
    (handler envFixture requestFixture).calls.deleteFile = 1 ∧
    ∀ b : Bool,
      (handler { envFixture with deleteOk := b } requestFixture).resp
        = (handler envFixture requestFixture).resp :=
  staged_file_released_exactly_once envFixture requestFixture "tmp1"
    ⟨by rfl, by rfl, by simp [requestFixture], by decide, by rfl,
     talentFixture, [], by rfl⟩ (by rfl)

/-- C1 (amended): once the profile is fetched and the pre-flight checks
pass, a failure of extraction, analysis or sanitization (the
`aiAnalysis` chain) is absorbed: the response is `success:true`, 200,
its analysis is exactly the fallback builder's report, and
`metadata.usedFallback` is `true`.  (A file-staging failure is also
absorbed, but by the inner upload `catch` of main.js lines 647-649: the
AI path then continues with the in-memory buffer, so it alone does not
produce a fallback-backed response — see the counterexample.) -/
theorem ai_failure_gives_fallback_success (env : Env) (req : Request)
    (t : Talent) (rest : List Talent)
    (h1 : env.geminiKeySet = true) (h2 : req.bodyParses = true)
    (h3 : ¬(req.talentId = "" ∨ req.fileData = "" ∨ req.fileName = ""))
    (h4 : fileExtensionOf req.fileName ∈ allowedExtensions)
    (h5 : fileTooLarge req.fileData = false)
    (htd : env.talentDocs = Except.ok (t :: rest))
    (hai : (aiAnalysis env).isOk = false) :
    (handler env req).resp.success = true ∧
    (handler env req).resp.statusCode = 200 ∧
    (handler env req).resp.analysis
      = some (generateFallbackAnalysis t (fetchedCareerPath env t)) ∧
    (handler env req).resp.metadata.map Metadata.usedFallback = some true := by
  cases hres : aiAnalysis env with
  | ok a => rw [hres] at hai; simp [Except.isOk, Except.toBool] at hai
  | error e =>
    unfold handler
    simp [h1, h2, h3, h4, h5, htd, hres]

/-- C1 witness: extraction fails, everything else succeeds. -/
theorem ai_failure_gives_fallback_success_witness :
    (handler { envFixture with extractResult := Except.error "model down" } requestFixture).resp.success = true ∧
    (handler { envFixture with extractResult := Except.error "model down" } requestFixture).resp.statusCode = 200 ∧
    (handler { envFixture with extractResult := Except.error "model down" } requestFixture).resp.analysis
      = some (generateFallbackAnalysis talentFixture
          (fetchedCareerPath { envFixture with extractResult := Except.error "model down" } talentFixture)) ∧
    (handler { envFixture with extractResult := Except.error "model down" } requestFixture).resp.metadata.map
        Metadata.usedFallback
      = some true :=
  ai_failure_gives_fallback_success
    { envFixture with extractResult := Except.error "model down" } requestFixture
    talentFixture [] (by rfl) (by rfl) (by simp [requestFixture]) (by decide) (by rfl)
    (by rfl) (by rfl)

/-- C1 counterexample: when only the staging call fails and both model
calls succeed, the response is still `success:true` but its report is
the AI one and `usedFallback` is `false` — a staging error is not
converted into a fallback-backed response. -/
theorem staging_error_does_not_force_fallback :
    ({ envFixture with createFileResult := Except.error "storage down" } : Env).createFileResult.isOk
      = false ∧
    (handler { envFixture with createFileResult := Except.error "storage down" } requestFixture).resp.success
      = true ∧
    (handler { envFixture with createFileResult := Except.error "storage down" } requestFixture).resp.metadata.map
        Metadata.usedFallback
      = some false := by
  refine ⟨?_, ?_, ?_⟩ <;> rfl

/-- Whether a possibly-present score value is a number in `[0, 100]`
(non-numbers and absent values are unconstrained — see the header note
on `ToNumber`). -/
def numInRange : Option JValue → Bool
  | some (JValue.num m e) => decide (0 ≤ m ∧ m ≤ 100 * (10 : Int) ^ e)
  | _ => true

/-- Whether a possibly-present score value is a number or absent. -/
def numOrAbsent : Option JValue → Bool
  | some (JValue.num _ _) => true
  | none => true
  | _ => false

/-- Every one of the four clamped score paths of `clampScores` is a
number in `[0, 100]` wherever it is a number at all. -/
def scoresInRange (v : JValue) : Bool :=
  numInRange (jget v "overallScore") &&
  numInRange (jget2 v "careerStageAlignment" "alignmentScore") &&
  numInRange (jget2 v "careerPathAlignment" "alignmentScore") &&
  numInRange (jget2 v "marketability" "score")

/-- Every one of the four score paths is a number or absent (the scope
on which the clamp model is faithful to the JavaScript source). -/
def scoresNumericOrAbsent (v : JValue) : Bool :=
  numOrAbsent (jget v "overallScore") &&
  numOrAbsent (jget2 v "careerStageAlignment" "alignmentScore") &&
  numOrAbsent (jget2 v "careerPathAlignment" "alignmentScore") &&
  numOrAbsent (jget2 v "marketability" "score")

theorem getField_setKey_self (fs : List (String × JValue)) (k : String) (v : JValue) :
    getField (setKey fs k v) k = some v := by
  induction fs with
  | nil =>
    show getField [(k, v)] k = some v
    simp [getField, List.find?_cons_of_pos]
  | cons p rest ih =>
    obtain ⟨k', v'⟩ := p
    by_cases h : k' = k
    · show getField (if k' = k then (k', v) :: rest else (k', v') :: setKey rest k v) k = some v
      rw [if_pos h]
      unfold getField
      rw [List.find?_cons_of_pos _ (by simp [h])]
      rfl
    · show getField (if k' = k then (k', v) :: rest else (k', v') :: setKey rest k v) k = some v
      rw [if_neg h]
      unfold getField at ih ⊢
      rw [List.find?_cons_of_neg _ (by simp [h])]
      exact ih

theorem getField_setKey_ne (fs : List (String × JValue)) (k kq : String) (v : JValue)
    (h : kq ≠ k) : getField (setKey fs k v) kq = getField fs kq := by
  induction fs with
  | nil =>
    show getField [(k, v)] kq = getField [] kq
    unfold getField
    rw [List.find?_cons_of_neg _ (by simp [Ne.symm h])]
  | cons p rest ih =>
    obtain ⟨k', v'⟩ := p
    show getField (if k' = k then (k', v) :: rest else (k', v') :: setKey rest k v) kq
      = getField ((k', v') :: rest) kq
    by_cases h2 : k' = k
    · rw [if_pos h2]
      subst h2
      unfold getField
      rw [List.find?_cons_of_neg _ (by simp [Ne.symm h]),
          List.find?_cons_of_neg _ (by simp [Ne.symm h])]
    · rw [if_neg h2]
      by_cases h3 : k' = kq
      · unfold getField
        rw [List.find?_cons_of_pos _ (by simp [h3]), List.find?_cons_of_pos _ (by simp [h3])]
      · unfold getField at ih ⊢
        rw [List.find?_cons_of_neg _ (by simp [h3]), List.find?_cons_of_neg _ (by simp [h3])]
        exact ih

theorem numInRange_clampNum (m : Int) (e : Nat) : numInRange (some (clampNum m e)) = true := by
  unfold clampNum
  split
  · decide
  · split
    · decide
    · rename_i h1 h2
      simp only [numInRange, decide_eq_true_eq]
      exact ⟨by omega, by omega⟩

theorem clampLeaf_result (fs : List (String × JValue)) (k : String) :
    numInRange (getField (clampLeaf fs k) k) = true := by
  unfold clampLeaf
  split
  · rw [getField_setKey_self]; exact numInRange_clampNum _ _
  · rw [getField_setKey_self]; exact numInRange_clampNum _ _
  · rw [getField_setKey_self]; exact numInRange_clampNum _ _
  · rename_i h1 h2 h3
    cases hgf : getField fs k with
    | none => rfl
    | some w =>
      cases w with
      | num m e => exact absurd hgf (h1 m e)
      | null => exact absurd hgf h2
      | bool b => exact absurd hgf (h3 b)
      | str s => rfl
      | arr xs => rfl
      | obj gs => rfl

theorem getField_clampLeaf_ne (fs : List (String × JValue)) (k kq : String) (h : kq ≠ k) :
    getField (clampLeaf fs k) kq = getField fs kq := by
  unfold clampLeaf
  split
  · rw [getField_setKey_ne _ _ _ _ h]
  · rw [getField_setKey_ne _ _ _ _ h]
  · rw [getField_setKey_ne _ _ _ _ h]
  · rfl

theorem jget_clampPath1_self (v : JValue) (k : String) :
    numInRange (jget (clampPath1 v k) k) = true := by
  cases v with
  | obj fs => exact clampLeaf_result fs k
  | null => rfl
  | bool b => rfl
  | num m e => rfl
  | str s => rfl
  | arr xs => rfl

theorem jget_clampPath1_ne (v : JValue) (k kq : String) (h : kq ≠ k) :
    jget (clampPath1 v k) kq = jget v kq := by
  cases v with
  | obj fs => exact getField_clampLeaf_ne fs k kq h
  | null => rfl
  | bool b => rfl
  | num m e => rfl
  | str s => rfl
  | arr xs => rfl

theorem jget2_clampPath1_ne (v : JValue) (k kq k2 : String) (h : kq ≠ k) :
    jget2 (clampPath1 v k) kq k2 = jget2 v kq k2 := by
  unfold jget2
  rw [jget_clampPath1_ne v k kq h]

theorem jget_clampPath2_ne (v : JValue) (k1 k2 kq : String) (h : kq ≠ k1) :
    jget (clampPath2 v k1 k2) kq = jget v kq := by
  cases v with
  | obj fs => exact getField_setKey_ne fs k1 kq _ h
  | null => rfl
  | bool b => rfl
  | num m e => rfl
  | str s => rfl
  | arr xs => rfl

theorem jget2_clampPath2_ne (v : JValue) (k1 k2 kq kq2 : String) (h : kq ≠ k1) :
    jget2 (clampPath2 v k1 k2) kq kq2 = jget2 v kq kq2 := by
  unfold jget2
  rw [jget_clampPath2_ne v k1 k2 kq h]

theorem jget2_obj_setKey (fs : List (String × JValue)) (k1 k2 : String) (c : JValue) :
    jget2 (JValue.obj (setKey fs k1 c)) k1 k2 = jget c k2 := by
  unfold jget2
  rw [show jget (JValue.obj (setKey fs k1 c)) k1 = getField (setKey fs k1 c) k1 from rfl,
      getField_setKey_self]

theorem jget2_clampPath2_self (v : JValue) (k1 k2 : String) :
    numInRange (jget2 (clampPath2 v k1 k2) k1 k2) = true := by
  cases v with
  | obj fs =>
    show numInRange
      (jget2 (JValue.obj (setKey fs k1 (clampChild k2 (childOrEmpty (getField fs k1))))) k1 k2)
      = true
    rw [jget2_obj_setKey]
    cases childOrEmpty (getField fs k1) with
    | obj gs => exact clampLeaf_result gs k2
    | null => rfl
    | bool b => rfl
    | num m e => rfl
    | str s => rfl
    | arr xs => rfl
  | null => rfl
  | bool b => rfl
  | num m e => rfl
  | str s => rfl
  | arr xs => rfl

theorem fallback_overall_score (t : Talent) (cp : Option CareerPath) :
    jget (generateFallbackAnalysis t cp) "overallScore" = some (jint 65) := rfl

theorem fallback_stage_score (t : Talent) (cp : Option CareerPath) :
    jget2 (generateFallbackAnalysis t cp) "careerStageAlignment" "alignmentScore"
      = some (jint (stageContentFor t.careerStage).alignmentScore) := rfl

theorem fallback_cpa_score (t : Talent) (cp : Option CareerPath) :
    jget2 (generateFallbackAnalysis t cp) "careerPathAlignment" "alignmentScore"
      = some (jint (match cp with | some _ => 50 | none => 0)) := by
  cases cp <;> rfl

theorem fallback_marketability_score (t : Talent) (cp : Option CareerPath) :
    jget2 (generateFallbackAnalysis t cp) "marketability" "score" = some (jint 55) := rfl

/-- C2 (amended): every report leaving the core has its numeric score
fields in `[0, 100]` — on the AI path the four score paths are clamped
(out-of-range numbers clipped, never rejected), and every fallback
report's scores are in range by construction.  Integrality is *not*
enforced: a fractional score passes through unchanged (see the
counterexample).  The hypothesis restricts to parsed responses whose
score fields are numbers or absent, the scope on which `clampLeaf`
models the JavaScript `Math` arithmetic exactly. -/
theorem report_scores_clamped_to_range (v : JValue) (t : Talent) (cp : Option CareerPath)
    (hnum : scoresNumericOrAbsent v = true) :
    scoresInRange (clampScores v) = true ∧
    scoresInRange (generateFallbackAnalysis t cp) = true := by
  constructor
  · unfold clampScores scoresInRange
    simp only [Bool.and_eq_true]
    refine ⟨⟨⟨?_, ?_⟩, ?_⟩, ?_⟩
    · rw [jget_clampPath2_ne _ _ _ _ (by decide), jget_clampPath2_ne _ _ _ _ (by decide),
          jget_clampPath2_ne _ _ _ _ (by decide)]
      exact jget_clampPath1_self v "overallScore"
    · rw [jget2_clampPath2_ne _ _ _ _ _ (by decide), jget2_clampPath2_ne _ _ _ _ _ (by decide)]
      exact jget2_clampPath2_self _ "careerStageAlignment" "alignmentScore"
    · rw [jget2_clampPath2_ne _ _ _ _ _ (by decide)]
      exact jget2_clampPath2_self _ "careerPathAlignment" "alignmentScore"
    · exact jget2_clampPath2_self _ "marketability" "score"
  · unfold scoresInRange
    simp only [Bool.and_eq_true]
    refine ⟨⟨⟨?_, ?_⟩, ?_⟩, ?_⟩
    · rw [fallback_overall_score]; decide
    · rw [fallback_stage_score]
      unfold stageContentFor pathfinderContent
      split_ifs <;> decide
    · rw [fallback_cpa_score]
      cases cp <;> rfl
    · rw [fallback_marketability_score]; decide

/-- C2 witness: a response whose `overallScore` of 150 is clipped to the
bounds (end-to-end scenario 4's clamp), plus a fallback report. -/
theorem report_scores_clamped_to_range_witness :
    scoresNumericOrAbsent (JValue.obj [("overallScore", JValue.num 150 0)]) = true ∧
    scoresInRange (clampScores (JValue.obj [("overallScore", JValue.num 150 0)])) = true ∧
    scoresInRange (generateFallbackAnalysis talentFixture none) = true :=
  ⟨by rfl,
   (report_scores_clamped_to_range (JValue.obj [("overallScore", JValue.num 150 0)])
     talentFixture none (by rfl)).1,
   (report_scores_clamped_to_range (JValue.obj [("overallScore", JValue.num 150 0)])
     talentFixture none (by rfl)).2⟩

/-- Whether the exact decimal `m / 10 ^ e` denotes an integer. -/
def numIsIntegral (m : Int) (e : Nat) : Prop := (10 : Int) ^ e ∣ m

instance (m : Int) (e : Nat) : Decidable (numIsIntegral m e) :=
  inferInstanceAs (Decidable ((10 : Int) ^ e ∣ m))

/-- A model response identical to `goodAnalysisRaw` except that
`overallScore` is the fractional, in-range `85.5`. -/
def fracScoreRaw : String :=
  "\x7b\"overallScore\": 85.5, \"careerStageAlignment\": \x7b\"alignmentScore\": 90\x7d, \"strengths\": [\"a\"], \"weaknesses\": [\"b\"], \"profileVsCvGaps\": \x7b\"x\": 1\x7d, \"recommendations\": [\"c\"], \"nextSteps\": [\"d\"], \"marketability\": \x7b\"score\": 78\x7d\x7d"

/-- C2 counterexample: a response whose `overallScore` is `85.5` passes
validation and clamping untouched — the caller receives a numeric score
field that is *not* an integer, so clamping does not make scores
integral. -/
theorem fractional_score_reaches_caller :
    (analyzeCVContent (Except.ok fracScoreRaw)).map (fun v => jget v "overallScore")
      = Except.ok (some (JValue.num 855 1)) ∧
    ((handler { envFixture with analysisResult := Except.ok fracScoreRaw } requestFixture).resp.analysis.map
        (fun v => jget v "overallScore"))
      = some (some (JValue.num 855 1)) ∧
    ¬ numIsIntegral 855 1 := by
  refine ⟨by rfl, by rfl, by decide⟩

/-- A `{` occurs strictly before some `}` — the negation of the
condition under which `extractAndCleanJSON` rejects its input, stated
on raw text (`startIndex === -1 || lastIndex === -1 || startIndex >=
lastIndex` holds iff no such pair exists). -/
def hasBracePair (s : List Char) : Bool :=
  match s.dropWhile (fun c => c ≠ '{') with
  | [] => false
  | _ :: rest => rest.contains '}'

theorem dropWhile_head_false {p : Char → Bool} {l : List Char} {a : Char} {as : List Char}
    (h : l.dropWhile p = a :: as) : p a = false := by
  induction l with
  | nil => simp [List.dropWhile] at h
  | cons c rest ih =>
    rw [List.dropWhile_cons] at h
    by_cases hc : p c
    · rw [if_pos hc] at h; exact ih h
    · rw [if_neg hc] at h
      injection h with h1 h2
      subst h1
      exact Bool.of_not_eq_true hc

theorem hasBracePair_iff_sublist (s : List Char) :
    hasBracePair s = true ↔ List.Sublist ['{', '}'] s := by
  induction s with
  | nil => simp [hasBracePair, List.dropWhile]
  | cons c rest ih =>
    unfold hasBracePair
    rw [List.dropWhile_cons]
    by_cases hc : c = '{'
    · subst hc
      rw [if_neg (by simp)]
      constructor
      · intro h
        have hm : '}' ∈ rest := by simpa using h
        exact List.Sublist.cons₂ _ ((List.singleton_sublist).mpr hm)
      · intro h
        cases h with
        | cons₂ _ h2 =>
          have hm : '}' ∈ rest := (List.singleton_sublist).mp h2
          simpa using hm
        | cons _ h2 =>
          have hm : '}' ∈ rest := h2.subset (by simp)
          simpa using hm
    · rw [if_pos (by simpa using hc)]
      unfold hasBracePair at ih
      rw [ih]
      constructor
      · intro h; exact h.cons _
      · intro h
        cases h with
        | cons _ h2 => exact h2
        | cons₂ _ h2 => exact absurd rfl hc

theorem stripTagWsGo_sublist (t0 : Char) (ttl : List Char) :
    ∀ (fuel : Nat) (s : List Char), List.Sublist (stripTagWsGo t0 ttl fuel s) s := by
  intro fuel
  induction fuel with
  | zero => intro s; exact List.Sublist.refl s
  | succ n ih =>
    intro s
    cases s with
    | nil => exact List.Sublist.refl []
    | cons c rest =>
      show List.Sublist
        (if (t0 :: ttl).isPrefixOf (c :: rest) then
          stripTagWsGo t0 ttl n ((rest.drop ttl.length).dropWhile isJsWs)
         else c :: stripTagWsGo t0 ttl n rest) (c :: rest)
      by_cases hp : (t0 :: ttl).isPrefixOf (c :: rest)
      · rw [if_pos hp]
        have h1 : List.Sublist ((rest.drop ttl.length).dropWhile isJsWs) rest :=
          (List.dropWhile_sublist _).trans (List.drop_sublist _ _)
        exact ((ih _).trans h1).cons c
      · rw [if_neg hp]
        exact (ih rest).cons₂ c

theorem stripTagWs_sublist (t0 : Char) (ttl : List Char) (s : List Char) :
    List.Sublist (stripTagWs t0 ttl s) s :=
  stripTagWsGo_sublist t0 ttl s.length s

theorem trimList_sublist (s : List Char) : List.Sublist (trimList s) s := by
  unfold trimList trimLeft trimRight
  have h1 : List.Sublist ((s.dropWhile isJsWs).reverse.dropWhile isJsWs)
      (s.dropWhile isJsWs).reverse := List.dropWhile_sublist _
  have h2 := h1.reverse
  simp only [List.reverse_reverse] at h2
  exact h2.trans (List.dropWhile_sublist _)

theorem sliceBraces_eq_none {u : List Char} (h : hasBracePair u = false) :
    sliceBraces u = none := by
  have hcore : braceCore u = [] := by
    unfold braceCore
    unfold hasBracePair at h
    cases hd : u.dropWhile (fun c => c ≠ '{') with
    | nil => rfl
    | cons d rest =>
      rw [hd] at h
      have hnotin : '}' ∉ rest := by simpa using h
      have hdval : d = '{' := by simpa using dropWhile_head_false hd
      have hdrop : (d :: rest).reverse.dropWhile (fun c => c ≠ '}') = [] := by
        rw [List.dropWhile_eq_nil_iff]
        intro x hx
        rw [List.mem_reverse, List.mem_cons] at hx
        simp only [ne_eq, decide_eq_true_eq]
        rcases hx with hx | hx
        · subst hx; rw [hdval]; decide
        · intro he
          exact hnotin (he ▸ hx)
      rw [hdrop]
      rfl
  unfold sliceBraces
  rw [hcore]
  rfl

/-- C7: On every input without an opening-brace/closing-brace pair (a
`{` strictly before a `}`) — fence stripping and trimming only delete
characters, so they cannot create one — the sanitizer fails with
exactly the `MalformedResponse` error ("No valid JSON object found"),
and with no other error: the equality pins the one error value the
routine can produce. -/
theorem no_brace_pair_malformed (s : String) (h : hasBracePair s.toList = false) :
    extractAndCleanJSON s
      = Except.error "Failed to clean JSON: No valid JSON object found in response" ∧
    sanitizeAndParse s
      = Except.error "Failed to clean JSON: No valid JSON object found in response" := by
  have h1 : extractAndCleanJSON s
      = Except.error "Failed to clean JSON: No valid JSON object found in response" := by
    unfold extractAndCleanJSON
    have hsub : List.Sublist
        (trimList (stripTagWs '`' ['`', '`']
          (stripTagWs '`' ['`', '`', 'j', 's', 'o', 'n'] s.toList))) s.toList :=
      (trimList_sublist _).trans ((stripTagWs_sublist _ _ _).trans (stripTagWs_sublist _ _ _))
    have h2 : hasBracePair (trimList (stripTagWs '`' ['`', '`']
        (stripTagWs '`' ['`', '`', 'j', 's', 'o', 'n'] s.toList))) = false := by
      cases hb : hasBracePair (trimList (stripTagWs '`' ['`', '`']
        (stripTagWs '`' ['`', '`', 'j', 's', 'o', 'n'] s.toList))) with
      | false => rfl
      | true =>
        have hs2 := ((hasBracePair_iff_sublist _).mp hb).trans hsub
        rw [(hasBracePair_iff_sublist s.toList).mpr hs2] at h
        cases h
    rw [sliceBraces_eq_none h2]
  exact ⟨h1, by unfold sanitizeAndParse; rw [h1]⟩

/-- C7 witness: prose with no braces. -/
theorem no_brace_pair_malformed_witness :
    hasBracePair ("The model returned prose only: no data available.".toList) = false ∧
    extractAndCleanJSON "The model returned prose only: no data available."
      = Except.error "Failed to clean JSON: No valid JSON object found in response" ∧
    sanitizeAndParse "The model returned prose only: no data available."
      = Except.error "Failed to clean JSON: No valid JSON object found in response" :=
  ⟨by rfl,
   (no_brace_pair_malformed "The model returned prose only: no data available." (by rfl)).1,
   (no_brace_pair_malformed "The model returned prose only: no data available." (by rfl)).2⟩

/-- A fuel at least the length of the input behaves like the canonical
fuel: one scan step always consumes at least one character. -/
theorem stripTagWsGo_fuel_ge (t0 : Char) (ttl : List Char) :
    ∀ (fuel : Nat) (s : List Char), s.length ≤ fuel →
      stripTagWsGo t0 ttl fuel s = stripTagWs t0 ttl s := by
  intro fuel
  induction fuel using Nat.strong_induction_on with
  | _ fuel ih =>
    intro s hlen
    match fuel, s with
    | 0, s =>
      have hnil : s = [] := List.eq_nil_of_length_eq_zero (Nat.le_zero.mp hlen)
      subst hnil
      rfl
    | n + 1, [] => rfl
    | n + 1, c :: rest =>
      have hr : rest.length ≤ n := by
        simp only [List.length_cons] at hlen
        omega
      show (if (t0 :: ttl).isPrefixOf (c :: rest) then
              stripTagWsGo t0 ttl n ((rest.drop ttl.length).dropWhile isJsWs)
            else c :: stripTagWsGo t0 ttl n rest)
        = stripTagWs t0 ttl (c :: rest)
      have hrhs : stripTagWs t0 ttl (c :: rest)
          = (if (t0 :: ttl).isPrefixOf (c :: rest) then
              stripTagWsGo t0 ttl rest.length ((rest.drop ttl.length).dropWhile isJsWs)
             else c :: stripTagWsGo t0 ttl rest.length rest) := rfl
      rw [hrhs]
      have hX : ((rest.drop ttl.length).dropWhile isJsWs).length ≤ rest.length :=
        ((List.dropWhile_sublist _).trans (List.drop_sublist _ _)).length_le
      by_cases hp : (t0 :: ttl).isPrefixOf (c :: rest)
      · rw [if_pos hp, if_pos hp]
        rw [ih n (by omega) _ (by omega), ih rest.length (by omega) _ hX]
      · rw [if_neg hp, if_neg hp]
        rw [ih n (by omega) _ hr, ih rest.length (by omega) _ (Nat.le_refl _)]

theorem stripTagWs_cons_nomatch (t0 : Char) (ttl : List Char) (c : Char) (rest : List Char)
    (h : (t0 :: ttl).isPrefixOf (c :: rest) = false) :
    stripTagWs t0 ttl (c :: rest) = c :: stripTagWs t0 ttl rest := by
  show (if (t0 :: ttl).isPrefixOf (c :: rest) then
          stripTagWsGo t0 ttl rest.length ((rest.drop ttl.length).dropWhile isJsWs)
        else c :: stripTagWsGo t0 ttl rest.length rest)
    = c :: stripTagWs t0 ttl rest
  rw [if_neg (by simp [h])]
  rfl

theorem stripTagWs_cons_match (t0 : Char) (ttl : List Char) (c : Char) (rest : List Char)
    (h : (t0 :: ttl).isPrefixOf (c :: rest) = true) :
    stripTagWs t0 ttl (c :: rest)
      = stripTagWs t0 ttl ((rest.drop ttl.length).dropWhile isJsWs) := by
  show (if (t0 :: ttl).isPrefixOf (c :: rest) then
          stripTagWsGo t0 ttl rest.length ((rest.drop ttl.length).dropWhile isJsWs)
        else c :: stripTagWsGo t0 ttl rest.length rest)
    = _
  rw [if_pos (by simp [h])]
  exact stripTagWsGo_fuel_ge t0 ttl rest.length _
    ((List.dropWhile_sublist _).trans (List.drop_sublist _ _)).length_le

theorem stripTagWs_all_skip (t0 : Char) (ttl : List Char) (s : List Char) (h : t0 ∉ s) :
    stripTagWs t0 ttl s = s := by
  induction s with
  | nil => rfl
  | cons c rest ih =>
    have hc : c ≠ t0 := fun he => h (he ▸ List.mem_cons_self c rest)
    rw [stripTagWs_cons_nomatch t0 ttl c rest
        (by simp [List.isPrefixOf]; intro he; exact absurd he.symm hc)]
    rw [ih (fun hm => h (List.mem_cons_of_mem c hm))]

theorem stripTagWs_append_left (t0 : Char) (ttl : List Char) (p s : List Char) (h : t0 ∉ p) :
    stripTagWs t0 ttl (p ++ s) = p ++ stripTagWs t0 ttl s := by
  induction p with
  | nil => simp
  | cons c p2 ih =>
    have hc : c ≠ t0 := fun he => h (he ▸ List.mem_cons_self c p2)
    rw [List.cons_append,
        stripTagWs_cons_nomatch t0 ttl c (p2 ++ s)
          (by simp [List.isPrefixOf]; intro he; exact absurd he.symm hc),
        ih (fun hm => h (List.mem_cons_of_mem c hm))]
    rfl

def jsonCore (mid : List Char) : List Char := '{' :: mid ++ ['}']

def fenceOpen : List Char := ['`', '`', '`', 'j', 's', 'o', 'n', '\n']

def fenceClose : List Char := ['\n', '`', '`', '`', '\n']

def decorated (p1 mid p2 : List Char) : List Char :=
  p1 ++ (fenceOpen ++ (jsonCore mid ++ (fenceClose ++ p2)))

theorem backtick_notin_jsonCore (mid : List Char) (hmid : '`' ∉ mid) : '`' ∉ jsonCore mid := by
  unfold jsonCore
  intro h
  rcases List.mem_cons.mp h with h | h
  · cases h
  · rcases List.mem_append.mp h with h | h
    · exact hmid h
    · rcases List.mem_singleton.mp h

theorem dropWhile_ws_jsonCore (mid r : List Char) :
    List.dropWhile isJsWs (jsonCore mid ++ r) = jsonCore mid ++ r := by
  have hshape : jsonCore mid ++ r = '{' :: (mid ++ ['}'] ++ r) := by simp [jsonCore]
  rw [hshape, List.dropWhile_cons, if_neg (by decide)]

theorem pass1_fenceClose (p2 : List Char) (hp2 : '`' ∉ p2) :
    stripTagWs '`' ['`', '`', 'j', 's', 'o', 'n'] (fenceClose ++ p2) = fenceClose ++ p2 := by
  show stripTagWs '`' ['`', '`', 'j', 's', 'o', 'n']
      ('\n' :: '`' :: '`' :: '`' :: '\n' :: p2) = '\n' :: '`' :: '`' :: '`' :: '\n' :: p2
  rw [stripTagWs_cons_nomatch _ _ _ _ (by simp [List.isPrefixOf]),
      stripTagWs_cons_nomatch _ _ _ _ (by simp [List.isPrefixOf]),
      stripTagWs_cons_nomatch _ _ _ _ (by simp [List.isPrefixOf]),
      stripTagWs_cons_nomatch _ _ _ _ (by simp [List.isPrefixOf]),
      stripTagWs_cons_nomatch _ _ _ _ (by simp [List.isPrefixOf]),
      stripTagWs_all_skip _ _ _ hp2]

theorem pass1_decorated (p1 mid p2 : List Char)
    (hp1 : '`' ∉ p1) (hmid : '`' ∉ mid) (hp2 : '`' ∉ p2) :
    stripTagWs '`' ['`', '`', 'j', 's', 'o', 'n'] (decorated p1 mid p2)
      = p1 ++ (jsonCore mid ++ (fenceClose ++ p2)) := by
  unfold decorated
  rw [stripTagWs_append_left _ _ _ _ hp1]
  congr 1
  show stripTagWs '`' ['`', '`', 'j', 's', 'o', 'n']
      ('`' :: '`' :: '`' :: 'j' :: 's' :: 'o' :: 'n' :: '\n' :: (jsonCore mid ++ (fenceClose ++ p2)))
    = jsonCore mid ++ (fenceClose ++ p2)
  rw [stripTagWs_cons_match _ _ _ _ (by simp [List.isPrefixOf])]
  show stripTagWs '`' ['`', '`', 'j', 's', 'o', 'n']
      (List.dropWhile isJsWs ('\n' :: (jsonCore mid ++ (fenceClose ++ p2))))
    = jsonCore mid ++ (fenceClose ++ p2)
  rw [show List.dropWhile isJsWs ('\n' :: (jsonCore mid ++ (fenceClose ++ p2)))
        = jsonCore mid ++ (fenceClose ++ p2) by
      rw [List.dropWhile_cons, if_pos (by decide), dropWhile_ws_jsonCore]]
  rw [stripTagWs_append_left _ _ _ _ (backtick_notin_jsonCore mid hmid)]
  rw [pass1_fenceClose p2 hp2]

theorem pass2_decorated (p1 mid p2 : List Char)
    (hp1 : '`' ∉ p1) (hmid : '`' ∉ mid) (hp2 : '`' ∉ p2) :
    stripTagWs '`' ['`', '`'] (p1 ++ (jsonCore mid ++ (fenceClose ++ p2)))
      = p1 ++ (jsonCore mid ++ ('\n' :: List.dropWhile isJsWs p2)) := by
  rw [stripTagWs_append_left _ _ _ _ hp1]
  congr 1
  rw [stripTagWs_append_left _ _ _ _ (backtick_notin_jsonCore mid hmid)]
  congr 1
  show stripTagWs '`' ['`', '`'] ('\n' :: '`' :: '`' :: '`' :: '\n' :: p2)
    = '\n' :: List.dropWhile isJsWs p2
  rw [stripTagWs_cons_nomatch _ _ _ _ (by simp [List.isPrefixOf])]
  rw [stripTagWs_cons_match _ _ _ _ (by simp [List.isPrefixOf])]
  show '\n' :: stripTagWs '`' ['`', '`'] (List.dropWhile isJsWs ('\n' :: p2))
    = '\n' :: List.dropWhile isJsWs p2
  rw [List.dropWhile_cons, if_pos (by decide)]
  rw [stripTagWs_all_skip _ _ _ (fun hm => hp2 ((List.dropWhile_sublist _).subset hm))]

theorem dropWhile_append_cons_false {pr : Char → Bool} (p : List Char) (z : Char) (Z : List Char)
    (hz : pr z = false) :
    List.dropWhile pr (p ++ z :: Z) = p.dropWhile pr ++ z :: Z := by
  induction p with
  | nil => simp [List.dropWhile_cons, hz]
  | cons c p2 ih =>
    rw [List.cons_append, List.dropWhile_cons, List.dropWhile_cons]
    by_cases hc : pr c
    · rw [if_pos hc, if_pos hc, ih]
    · rw [if_neg hc, if_neg hc, List.cons_append]

theorem dropWhile_nil_of_all {pr : Char → Bool} (p : List Char) (h : ∀ c ∈ p, pr c = true) :
    p.dropWhile pr = [] := by
  rw [List.dropWhile_eq_nil_iff]
  exact fun x hx => h x hx

theorem braceCore_of_decomp (p q mid : List Char) (hp : '{' ∉ p) (hq : '}' ∉ q) :
    braceCore (p ++ (jsonCore mid ++ q)) = jsonCore mid := by
  unfold braceCore
  rw [show p ++ (jsonCore mid ++ q) = p ++ '{' :: (mid ++ ['}'] ++ q) by simp [jsonCore]]
  rw [dropWhile_append_cons_false p '{' _ (by decide)]
  rw [dropWhile_nil_of_all p (fun c hc => by
    simp only [ne_eq, decide_eq_true_eq]
    exact fun he => hp (he ▸ hc))]
  rw [List.nil_append]
  rw [show ('{' :: (mid ++ ['}'] ++ q)).reverse
        = q.reverse ++ '}' :: (mid.reverse ++ ['{']) by simp]
  rw [dropWhile_append_cons_false q.reverse '}' _ (by decide)]
  rw [dropWhile_nil_of_all q.reverse (fun c hc => by
    simp only [ne_eq, decide_eq_true_eq]
    rw [List.mem_reverse] at hc
    exact fun he => hq (he ▸ hc))]
  rw [List.nil_append]
  simp [jsonCore]

theorem trim_slice_decomp (p q mid : List Char) (hp : '{' ∉ p) (hq : '}' ∉ q) :
    sliceBraces (trimList (p ++ (jsonCore mid ++ q))) = some (jsonCore mid) := by
  have h1 : trimLeft (p ++ (jsonCore mid ++ q)) = trimLeft p ++ (jsonCore mid ++ q) := by
    unfold trimLeft
    rw [show p ++ (jsonCore mid ++ q) = p ++ '{' :: (mid ++ ['}'] ++ q) by simp [jsonCore]]
    rw [dropWhile_append_cons_false p '{' _ (by decide)]
    simp [jsonCore]
  have h2 : trimRight (trimLeft p ++ (jsonCore mid ++ q))
      = trimLeft p ++ (jsonCore mid ++ trimRight q) := by
    unfold trimRight
    rw [show (trimLeft p ++ (jsonCore mid ++ q)).reverse
          = q.reverse ++ '}' :: (mid.reverse ++ '{' :: (trimLeft p).reverse) by simp [jsonCore]]
    rw [dropWhile_append_cons_false q.reverse '}' _ (by decide)]
    simp [jsonCore]
  have hcore : braceCore (trimLeft p ++ (jsonCore mid ++ trimRight q)) = jsonCore mid :=
    braceCore_of_decomp (trimLeft p) (trimRight q) mid
      (fun hm => hp ((List.dropWhile_sublist _).subset hm))
      (fun hm => hq (by
        unfold trimRight at hm
        rw [List.mem_reverse] at hm
        have hm2 := (List.dropWhile_sublist _).subset hm
        rw [List.mem_reverse] at hm2
        exact hm2))
  unfold trimList
  rw [h1, h2]
  unfold sliceBraces
  rw [hcore]
  rw [if_neg (by simp [jsonCore])]

/-- C8: sanitizing a minimal structured text (`{` ... `}`) wrapped in
fenced-code markers and surrounded by arbitrary prose — prose free of
braces and backticks, so that it neither moves the brace boundaries nor
carries fence markers of its own — produces exactly the same cleaned
string, and hence the same parsed value, as sanitizing the bare text. -/
theorem decorated_sanitize_eq_bare (mid p1 p2 : List Char)
    (hmid : '`' ∉ mid)
    (hp1brace : '{' ∉ p1) (hp1tick : '`' ∉ p1)
    (hp2brace : '}' ∉ p2) (hp2tick : '`' ∉ p2) :
    extractAndCleanJSON (String.mk (decorated p1 mid p2))
      = extractAndCleanJSON (String.mk (jsonCore mid)) ∧
    sanitizeAndParse (String.mk (decorated p1 mid p2))
      = sanitizeAndParse (String.mk (jsonCore mid)) := by
  have hq : '}' ∉ '\n' :: List.dropWhile isJsWs p2 := by
    intro hm
    rcases List.mem_cons.mp hm with hm | hm
    · cases hm
    · exact hp2brace ((List.dropWhile_sublist _).subset hm)
  have e1 : extractAndCleanJSON (String.mk (decorated p1 mid p2))
      = Except.ok (String.mk (repairCore (jsonCore mid))) := by
    unfold extractAndCleanJSON
    rw [show (String.mk (decorated p1 mid p2)).toList = decorated p1 mid p2 from rfl]
    rw [pass1_decorated p1 mid p2 hp1tick hmid hp2tick]
    rw [pass2_decorated p1 mid p2 hp1tick hmid hp2tick]
    rw [trim_slice_decomp p1 ('\n' :: List.dropWhile isJsWs p2) mid hp1brace hq]
  have e2 : extractAndCleanJSON (String.mk (jsonCore mid))
      = Except.ok (String.mk (repairCore (jsonCore mid))) := by
    unfold extractAndCleanJSON
    rw [show (String.mk (jsonCore mid)).toList = jsonCore mid from rfl]
    rw [stripTagWs_all_skip _ _ _ (backtick_notin_jsonCore mid hmid)]
    rw [stripTagWs_all_skip _ _ _ (backtick_notin_jsonCore mid hmid)]
    rw [show jsonCore mid = [] ++ (jsonCore mid ++ []) by simp]
    rw [trim_slice_decomp [] [] mid (by simp) (by simp)]
    simp
  constructor
  · rw [e1, e2]
  · unfold sanitizeAndParse
    rw [e1, e2]

/-- C8 witness: a concrete fenced, prose-surrounded response parses to
the same value as the bare object text. -/
theorem decorated_sanitize_eq_bare_witness :
    ('`' ∉ "\"overallScore\": 3".toList ∧
     '{' ∉ "Sure! Here is the result:".toList ∧ '`' ∉ "Sure! Here is the result:".toList ∧
     '}' ∉ "Hope this helps.".toList ∧ '`' ∉ "Hope this helps.".toList) ∧
    sanitizeAndParse
        (String.mk (decorated "Sure! Here is the result:".toList
          "\"overallScore\": 3".toList "Hope this helps.".toList))
      = sanitizeAndParse (String.mk (jsonCore "\"overallScore\": 3".toList)) ∧
    sanitizeAndParse (String.mk (jsonCore "\"overallScore\": 3".toList))
      = Except.ok (JValue.obj [("overallScore", JValue.num 3 0)]) :=
  ⟨⟨by decide, by decide, by decide, by decide, by decide⟩,
   (decorated_sanitize_eq_bare "\"overallScore\": 3".toList
      "Sure! Here is the result:".toList "Hope this helps.".toList
      (by decide) (by decide) (by decide) (by decide) (by decide)).2,
   by rfl⟩
